import Mathlib

/-!
Shallow embedding of the Formstack API v2 Node.js client (src/index.js) and
verification of its specification.  JS objects are modeled as association
lists in insertion order; JS primitive values appearing in parameter mappings
are modeled by Scalar, parameter values by QVal, JSON values by JValue.
Host-platform collaborators (Date.parse, JSON.parse, the HTTPS transport),
which the spec scopes out as external, are modeled as explicit inputs.
-/

namespace Formstack

/-- Primitive JS values usable in parameter mappings (string, number, boolean).
Numbers are modeled as integers: every number the source puts into a parameter
mapping is an integer. -/
inductive Scalar where
  | str (s : String)
  | int (n : Int)
  | bool (b : Bool)
  deriving DecidableEq

/-- Decimal digit character. -/
def digitChar (d : Nat) : Char := Char.ofNat (48 + d)

/-- Decimal digit list, fuel-driven so that the definition is structural and
evaluates inside the kernel; the fuel argument strictly exceeds the number. -/
def natDigitsAux : Nat → Nat → List Char
  | 0, _ => []
  | fuel + 1, n =>
      if n < 10 then [digitChar n]
      else natDigitsAux fuel (n / 10) ++ [digitChar (n % 10)]

/-- Decimal digit list of a natural number, most significant digit first. -/
def natDigits (n : Nat) : List Char := natDigitsAux (n + 1) n

/-- Decimal rendering of a natural number, as produced by JS number-to-string
conversion for integral values. -/
def natToStr (n : Nat) : String := String.mk (natDigits n)

/-- Decimal rendering of an integer. -/
def intToStr (n : Int) : String :=
  if n < 0 then "-" ++ natToStr n.natAbs else natToStr n.toNat

/-- JS string conversion of a primitive value, as applied when the source
concatenates a value into a query segment. -/
def Scalar.toJSString : Scalar → String
  | .str s => s
  | .int n => intToStr n
  | .bool b => if b then "true" else "false"

/-- Parameter-mapping values: a primitive, or a one-level-flat mapping of
primitives (src/index.js line 828 distinguishes the two by a typeof check). -/
inductive QVal where
  | scalar (v : Scalar)
  | nested (fields : List (String × Scalar))
  deriving DecidableEq

/-- Characters that JS encodeURI leaves unescaped: ASCII alphanumerics and
the marks ; / ? : @ & = + $ , - _ . ! ~ * ( ) and the apostrophe and the
number sign.  The equals sign and the ampersand are in this set. -/
def uriUnescaped (c : Char) : Bool :=
  (decide (65 ≤ c.toNat) && decide (c.toNat ≤ 90)) ||
  (decide (97 ≤ c.toNat) && decide (c.toNat ≤ 122)) ||
  (decide (48 ≤ c.toNat) && decide (c.toNat ≤ 57)) ||
  c == ';' || c == '/' || c == '?' || c == ':' || c == '@' || c == '&' ||
  c == '=' || c == '+' || c == '$' || c == ',' || c == '-' || c == '_' ||
  c == '.' || c == '!' || c == '~' || c == '*' || c == Char.ofNat 39 ||
  c == '(' || c == ')' || c == Char.ofNat 35

/-- UTF-8 byte sequence of a Unicode code point. -/
def utf8Bytes (n : Nat) : List Nat :=
  if n < 128 then [n]
  else if n < 2048 then [192 + n / 64, 128 + n % 64]
  else if n < 65536 then [224 + n / 4096, 128 + (n / 64) % 64, 128 + n % 64]
  else [240 + n / 262144, 128 + (n / 4096) % 64, 128 + (n / 64) % 64, 128 + n % 64]

/-- Uppercase hexadecimal digit character. -/
def hexDigitChar (n : Nat) : Char :=
  if n < 10 then Char.ofNat (48 + n) else Char.ofNat (55 + n)

/-- Percent-encoding of one byte. -/
def percentByte (b : Nat) : List Char :=
  ['%', hexDigitChar (b / 16), hexDigitChar (b % 16)]

/-- Encoding of one character under JS encodeURI: kept verbatim when in the
unescaped set, otherwise replaced by the percent-encoded UTF-8 bytes of its
code point. -/
def encodeURIChar (c : Char) : List Char :=
  if uriUnescaped c then [c]
  else (utf8Bytes c.toNat).foldr (fun b acc => percentByte b ++ acc) []

/-- Model of JS encodeURI, applied character by character. -/
def encodeURI (s : String) : String :=
  String.mk (s.data.foldr (fun c acc => encodeURIChar c ++ acc) [])

/-- Loop body of dataToQueryString (src/index.js lines 827-838): push one
segment per scalar entry, and one segment per inner entry of a nested
mapping. -/
def pushSegments (parts : List String) (item : String × QVal) : List String :=
  match item.2 with
  | QVal.nested subs =>
      subs.foldl (fun parts2 sub =>
        parts2 ++ [item.1 ++ "[" ++ sub.1 ++ "]=" ++ Scalar.toJSString sub.2]) parts
  | QVal.scalar v => parts ++ [item.1 ++ "=" ++ Scalar.toJSString v]

/-- Model of dataToQueryString (src/index.js lines 822-844): push the
segments of every entry in iteration order, join the pushed segments with
ampersands, then encode the joined string once with encodeURI. -/
def dataToQueryString (data : List (String × QVal)) : String :=
  encodeURI (String.intercalate "&" (data.foldl pushSegments []))

/-- Segments of one mapping entry, following the words of the spec
(section 4.2): a flat mapping emits one bracketed segment per inner entry in
iteration order, any other value emits a single key equals value segment. -/
def specSegments : String × QVal → List String
  | (k, QVal.scalar v) => [k ++ "=" ++ Scalar.toJSString v]
  | (k, QVal.nested subs) =>
      subs.map (fun sub => k ++ "[" ++ sub.1 ++ "]=" ++ Scalar.toJSString sub.2)

/-- Reference definition of the encoder, following the words of the spec:
emit the segments of every entry in iteration order, join them with
ampersands, and apply URI encoding once to the whole joined string. -/
def specEncode (data : List (String × QVal)) : String :=
  encodeURI (String.intercalate "&" (data.map specSegments).flatten)

/-- JSON values as delivered by the host JSON parser.  Numbers are modeled as
integers; the payload shapes relevant to the claims carry none that are not. -/
inductive JValue where
  | null
  | bool (b : Bool)
  | num (n : Int)
  | str (s : String)
  | arr (elems : List JValue)
  | obj (fields : List (String × JValue))

/-- First-match lookup in a JSON object. -/
def jsonLookup : List (String × JValue) → String → Option JValue
  | [], _ => none
  | (k, v) :: rest, key => if k = key then some v else jsonLookup rest key

/-- Truthiness of the JS value in the data slot; Option.none models null or
undefined. -/
def jsTruthy : Option JValue → Bool
  | none => false
  | some JValue.null => false
  | some (JValue.bool b) => b
  | some (JValue.num n) => decide (n ≠ 0)
  | some (JValue.str s) => decide (s ≠ "")
  | some (JValue.arr _) => true
  | some (JValue.obj _) => true

/-- Model of the comparison of the status property of the data against the
string error with JS loose equality: it succeeds exactly when the data is an
object whose status field is that string (a JSON field compared against a
nonempty non-numeric string is loosely equal only to that exact string). -/
def statusIsError : Option JValue → Bool
  | some (JValue.obj fs) =>
      match jsonLookup fs "status" with
      | some (JValue.str s) => decide (s = "error")
      | _ => false
  | _ => false

/-- Error values delivered on the err slot of a callback: the status-code
Error built at src/index.js line 139, the error object of a transport error
event (line 160), or the full JSON payload moved over by a resource method. -/
inductive ErrVal where
  | httpStatus (code : Nat)
  | transport (msg : String)
  | payload (j : JValue)

/-- Uncaught JS exceptions escaping a handler: the throw of the host JSON
parser on a malformed body, and the TypeError of a property access on null
or undefined. -/
inductive JsException where
  | parseThrow
  | nullAccessThrow
  deriving DecidableEq

/-- Observable outcome of the response phase of one call: either the
caller-supplied callback is invoked with a data and an err value, or an
exception escapes uncaught. -/
inductive CallOutcome where
  | callback (data : Option JValue) (err : Option ErrVal)
  | thrown (e : JsException)

/-- Transport-level event completing one HTTPS request: a response carrying a
status code together with the result of the host JSON parser on the fully
buffered body (none when the body is not well-formed JSON), or a transport
error event. -/
inductive HttpEvent where
  | response (status : Nat) (parsed : Option JValue)
  | transportError (msg : String)

/-- Top-level JS value of a parsed JSON document: a document that is the JSON
null literal is the JS null value, which the data slot models as Option.none. -/
def jsData : JValue → Option JValue
  | JValue.null => none
  | j => some j

/-- Model of the response handling of FsAPI.prototype.request (src/index.js
lines 136-161).  A status outside the 200 range delivers callback with a null
data and a status-code Error, without reading the body.  Otherwise the body
is parsed: a parse failure escapes as an uncaught exception, because the
source wraps the parse in no try or catch; on success the source invokes
callback with the parsed value as its only argument, so the err slot is
undefined.  A transport error event delivers callback with a null data and
the error object. -/
def requestOutcome : HttpEvent → CallOutcome
  | HttpEvent.transportError m => CallOutcome.callback none (some (ErrVal.transport m))
  | HttpEvent.response status parsed =>
      if status < 200 ∨ 300 ≤ status then
        CallOutcome.callback none (some (ErrVal.httpStatus status))
      else
        match parsed with
        | none => CallOutcome.thrown JsException.parseThrow
        | some j => CallOutcome.callback (jsData j) none

/-- Continuation step shared by every resource method (for getForms it is
src/index.js lines 189-192): when the data is truthy and its status field is
the string error, the full payload moves to the err slot and the data becomes
null; otherwise the pair passes through unchanged. -/
def convertApiError : Option JValue → Option ErrVal → Option JValue × Option ErrVal
  | some j, e =>
      if jsTruthy (some j) && statusIsError (some j) then (none, some (ErrVal.payload j))
      else (some j, e)
  | none, e => (none, e)

/-- Property access on a non-null JS value: undefined unless the value is an
object carrying the field; a null field value is the JS null. -/
def jsGetField (j : JValue) (key : String) : Option JValue :=
  match j with
  | JValue.obj fs =>
      match jsonLookup fs key with
      | some v => jsData v
      | none => none
  | _ => none

/-- Response path of FsAPI.prototype.getFormDetails (src/index.js lines
220-235): convert an API-level error payload, then deliver callback with the
resulting data and err pair. -/
def getFormDetailsOutcome (ev : HttpEvent) : CallOutcome :=
  match requestOutcome ev with
  | CallOutcome.thrown e => CallOutcome.thrown e
  | CallOutcome.callback d e =>
      let p := convertApiError d e
      CallOutcome.callback p.1 p.2

/-- Response path of FsAPI.prototype.getForms (src/index.js lines 187-200):
convert an API-level error payload, then deliver callback with the forms
property of the data and the err value.  Reading the forms property throws a
TypeError when the data is null or undefined, which on this path is exactly
every failure case. -/
def getFormsOutcome (ev : HttpEvent) : CallOutcome :=
  match requestOutcome ev with
  | CallOutcome.thrown e => CallOutcome.thrown e
  | CallOutcome.callback d e =>
      let p := convertApiError d e
      match p.1 with
      | none => CallOutcome.thrown JsException.nullAccessThrow
      | some j => CallOutcome.callback (jsGetField j "forms") p.2

/-- The API-level error payload of the spec examples, the JSON document with
status error and message x. -/
def errorPayload : JValue :=
  JValue.obj [("status", JValue.str "error"), ("message", JValue.str "x")]

/-- Model of strtotime (src/index.js lines 855-863), over the result of the
host date parser: none models a NaN parse, a value is the signed count of
milliseconds since the epoch.  The source returns null when the parse is NaN
or strictly negative, and otherwise the milliseconds divided by 1000 — a JS
number division, modeled as a rational. -/
def strtotime (ts : Option Int) : Option Rat :=
  match ts with
  | none => none
  | some t => if t < 0 then none else some ((t : Rat) / 1000)

/-- Decimal digit test, the regular-expression digit class. -/
def isDigitChar (c : Char) : Bool := decide (48 ≤ c.toNat) && decide (c.toNat ≤ 57)

/-- Characters matched by the whitespace class of JS regular expressions. -/
def jsWhitespace (c : Char) : Bool :=
  decide (c.toNat = 32) || decide (c.toNat = 9) || decide (c.toNat = 10) ||
  decide (c.toNat = 11) || decide (c.toNat = 12) || decide (c.toNat = 13) ||
  decide (c.toNat = 160) || decide (c.toNat = 5760) ||
  (decide (8192 ≤ c.toNat) && decide (c.toNat ≤ 8202)) ||
  decide (c.toNat = 8232) || decide (c.toNat = 8233) || decide (c.toNat = 8239) ||
  decide (c.toNat = 8287) || decide (c.toNat = 12288) || decide (c.toNat = 65279)

/-- Consume exactly n digits. -/
def eatDigits : Nat → List Char → Option (List Char)
  | 0, l => some l
  | _ + 1, [] => none
  | n + 1, c :: l => if isDigitChar c then eatDigits n l else none

/-- Consume one or two digits, greedily.  In the modeled pattern every
one-or-two-digit group is followed by a non-digit or the end of the string,
so greedy matching without backtracking coincides with the regular
expression. -/
def eatDigits12 : List Char → Option (List Char)
  | [] => none
  | [c] => if isDigitChar c then some [] else none
  | c1 :: c2 :: r =>
      if isDigitChar c1 then
        if isDigitChar c2 then some r else some (c2 :: r)
      else none

/-- Consume one character satisfying the test. -/
def eatSym (p : Char → Bool) : List Char → Option (List Char)
  | [] => none
  | c :: l => if p c then some l else none

/-- Matcher for the anchored default pattern of testDateFormat
(src/index.js line 876): four digits, a hyphen, one or two digits, a hyphen,
one or two digits, a whitespace-class character, then three colon-separated
groups of one or two digits; the sep parameter is the character class between
the date and the time. -/
def runCanonical (sep : Char → Bool) (l : List Char) : Option (List Char) :=
  (eatDigits 4 l).bind (fun r1 =>
  (eatSym (fun c => c == '-') r1).bind (fun r2 =>
  (eatDigits12 r2).bind (fun r3 =>
  (eatSym (fun c => c == '-') r3).bind (fun r4 =>
  (eatDigits12 r4).bind (fun r5 =>
  (eatSym sep r5).bind (fun r6 =>
  (eatDigits12 r6).bind (fun r7 =>
  (eatSym (fun c => c == ':') r7).bind (fun r8 =>
  (eatDigits12 r8).bind (fun r9 =>
  (eatSym (fun c => c == ':') r9).bind (fun r10 =>
  eatDigits12 r10))))))))))

/-- Model of testDateFormat with its default pattern (src/index.js lines
875-878): whether the whole string matches the anchored pattern.  The source
returns the match array or null; the model returns the corresponding
boolean. -/
def testDateFormat (s : String) : Bool :=
  decide (runCanonical jsWhitespace s.data = some [])

/-- Block of digit characters. -/
def digitsBlock (l : List Char) : Prop := ∀ c ∈ l, isDigitChar c = true

/-- Head character digit test, false on the empty list. -/
def headIsDigit : List Char → Bool
  | [] => false
  | c :: _ => isDigitChar c

/-- Value of a decimal digit string, accumulator style. -/
def digitsVal (l : List Char) (acc : Nat) : Nat :=
  l.foldl (fun a c => a * 10 + (c.toNat - 48)) acc

/-- Strings of shape YYYY-MM-DD HH:MM:SS as worded by the spec: a four-digit
year and one-or-two-digit month, day, hour, minute and second components,
with hyphens, colons, and a separator character drawn from the sep class
between date and time.  The claimed shape takes sep to be the space; the
source accepts any whitespace-class character. -/
def canonicalShapeList (sep : Char → Bool) (l : List Char) : Prop :=
  ∃ y mo dy hr mi se : List Char, ∃ sc : Char,
    l = y ++ '-' :: (mo ++ '-' :: (dy ++ sc :: (hr ++ ':' :: (mi ++ ':' :: se)))) ∧
    y.length = 4 ∧ digitsBlock y ∧
    1 ≤ mo.length ∧ mo.length ≤ 2 ∧ digitsBlock mo ∧
    1 ≤ dy.length ∧ dy.length ≤ 2 ∧ digitsBlock dy ∧
    sep sc = true ∧
    1 ≤ hr.length ∧ hr.length ≤ 2 ∧ digitsBlock hr ∧
    1 ≤ mi.length ∧ mi.length ≤ 2 ∧ digitsBlock mi ∧
    1 ≤ se.length ∧ se.length ≤ 2 ∧ digitsBlock se

/-- Client configuration, the FsAPI constructor state (src/index.js lines
52-76). -/
structure FsAPI where
  accessToken : String
  apiHost : String
  apiPort : Nat
  apiPath : String
  deriving DecidableEq

/-- Configuration errors thrown synchronously by the request helper
(src/index.js lines 100-116). -/
inductive ReqError where
  | noEndpoint
  | noCallback
  | invalidVerb
  deriving DecidableEq

/-- HTTPS request descriptor built by the request helper (src/index.js lines
123-134): the options object plus the body written to the request.  The
Content-Length header and the body write happen only when the encoded
parameter string is truthy, that is nonempty. -/
structure ReqOptions where
  hostname : String
  port : Nat
  path : String
  method : String
  authHeader : String
  contentLength : Option Nat
  body : Option String
  deriving DecidableEq

/-- Valid verbs for https requests (src/index.js lines 10-15). -/
def validVerbs : List String := ["GET", "PUT", "POST", "DELETE"]

/-- ASCII fragment of JS toUpperCase; every string the source uppercases is
ASCII. -/
def jsUpperChar (c : Char) : Char :=
  if 97 ≤ c.toNat ∧ c.toNat ≤ 122 then Char.ofNat (c.toNat - 32) else c

/-- Uppercasing of a whole string. -/
def jsToUpperCase (s : String) : String := String.mk (s.data.map jsUpperChar)

/-- Verb normalization of the request helper (src/index.js lines 108 and
113): a missing or empty — JS falsy — verb defaults to GET, then the verb is
uppercased. -/
def normalizeVerb (verb : Option String) : String :=
  jsToUpperCase (match verb with
    | none => "GET"
    | some s => if s = "" then "GET" else s)

/-- Model of the synchronous phase of FsAPI.prototype.request (src/index.js
lines 98-135): validate the endpoint, the callback and the verb, encode the
arguments, and build the HTTPS request descriptor.  An error result models an
Error thrown synchronously, before any request descriptor or network I/O
exists.  The callback argument is abstracted to whether a function was
supplied. -/
def FsAPI.request (api : FsAPI) (endpoint : String) (verb : Option String)
    (args : Option (List (String × QVal))) (callbackIsFunction : Bool) :
    Except ReqError ReqOptions :=
  if endpoint = "" then Except.error ReqError.noEndpoint
  else if callbackIsFunction = false then Except.error ReqError.noCallback
  else
    let v := normalizeVerb verb
    if validVerbs.contains v = false then Except.error ReqError.invalidVerb
    else
      let postData : Option String := args.map dataToQueryString
      let hasBody : Bool := match postData with
        | some s => decide (s ≠ "")
        | none => false
      Except.ok
        ⟨api.apiHost, api.apiPort, api.apiPath ++ endpoint, v,
          "Bearer " ++ api.accessToken,
          if hasBody then postData.map String.length else none,
          if hasBody then postData else none⟩

/-- Errors thrown synchronously by the resource methods before any request is
attempted, plus the pass-through of request-helper errors. -/
inductive FsError where
  | fieldPairMismatch
  | invalidMinTime
  | invalidMaxTime
  | invalidTimestamp
  | perPageRange
  | badSort
  | requestErr (e : ReqError)
  deriving DecidableEq

/-- JS default-filling of an optional string with null: the empty string is
falsy and also becomes null. -/
def jsOrNone (s : Option String) : Option String :=
  match s with
  | some s => if s = "" then none else some s
  | none => none

/-- JS object property assignment: replace the value at an existing key in
place, keeping the original property position, otherwise append the new key
at the end (the parameter objects of the source have unique keys, so first
match is the property). -/
def objSet : List (String × QVal) → String → QVal → List (String × QVal)
  | [], k, v => [(k, v)]
  | p :: rest, k, v => if p.1 == k then (k, v) :: rest else p :: objSet rest k v

/-- JS object property read, first match. -/
def objGet (ps : List (String × QVal)) (k : String) : Option QVal :=
  match ps with
  | [] => none
  | p :: rest => if p.1 == k then some p.2 else objGet rest k

/-- Key of the i-th search-field parameter. -/
def searchFieldKey (i : Nat) : String := "search_field_" ++ natToStr i

/-- Loop of src/index.js lines 369-379: for each index, two successive
assignments to the same search_field key — first the field id, then
immediately the field value at the same index. -/
def searchFieldsFold (ids : List Int) (vals : List Scalar)
    (ps : List (String × QVal)) : List (String × QVal) :=
  (List.enumFrom 0 (ids.zip vals)).foldl
    (fun acc x =>
      objSet (objSet acc (searchFieldKey x.1) (QVal.scalar (Scalar.int x.2.1)))
        (searchFieldKey x.1) (QVal.scalar x.2.2)) ps

/-- Arguments of getSubmissions (src/index.js lines 303-314), after the
defaulting of absent members is made explicit by Option types; array members
default to the empty list. -/
structure GetSubsArgs where
  encryptionPassword : Option String
  minTime : Option String
  maxTime : Option String
  searchFieldIds : List Int
  searchFieldValues : List Scalar
  pageNumber : Option Int
  perPage : Option Int
  sort : Option String
  data : Bool
  expandData : Bool
  deriving DecidableEq

/-- Time-argument validity test of src/index.js lines 316-322: a present time
string is bad when strtotime on it returns null. -/
def badTimeArg (dateParse : String → Option Int) : Option String → Bool
  | some s => decide (strtotime (dateParse s) = none)
  | none => false

/-- Default-filled page number (src/index.js line 309): a missing or zero —
JS falsy — page number becomes 1. -/
def defaultPageNumber (p : Option Int) : Int :=
  match p with
  | none => 1
  | some p => if p = 0 then 1 else p

/-- Default-filled per-page count (src/index.js line 310): a missing value
becomes 25; an explicit zero is kept and rejected by the range check. -/
def defaultPerPage (p : Option Int) : Int :=
  match p with
  | none => 25
  | some p => p

/-- Default-filled, uppercased sort direction (src/index.js lines 311-312). -/
def defaultSort (s : Option String) : String :=
  jsToUpperCase (match s with
    | none => "DESC"
    | some s => if s = "" then "DESC" else s)

/-- Parameter mapping of getSubmissions before the search-field loop
(src/index.js lines 343-367): every present, truthy argument is assigned to
its wire name in source order. -/
def getSubmissionsBaseParams (args : GetSubsArgs) : List (String × QVal) :=
  let ps : List (String × QVal) := []
  let ps := match jsOrNone args.encryptionPassword with
    | some s => objSet ps "encryption_password" (QVal.scalar (Scalar.str s))
    | none => ps
  let ps := match jsOrNone args.minTime with
    | some s => objSet ps "min_time" (QVal.scalar (Scalar.str s))
    | none => ps
  let ps := match jsOrNone args.maxTime with
    | some s => objSet ps "max_time" (QVal.scalar (Scalar.str s))
    | none => ps
  let ps := if defaultPageNumber args.pageNumber ≠ 0 then
      objSet ps "page" (QVal.scalar (Scalar.int (defaultPageNumber args.pageNumber)))
    else ps
  let ps := if defaultPerPage args.perPage ≠ 0 then
      objSet ps "per_page" (QVal.scalar (Scalar.int (defaultPerPage args.perPage)))
    else ps
  let ps := if defaultSort args.sort ≠ "" then
      objSet ps "sort" (QVal.scalar (Scalar.str (defaultSort args.sort)))
    else ps
  let ps := if args.data then objSet ps "data" (QVal.scalar (Scalar.bool true)) else ps
  let ps := if args.expandData then objSet ps "expand_data" (QVal.scalar (Scalar.bool true)) else ps
  ps

/-- Model of the validation and parameter building of
FsAPI.prototype.getSubmissions (src/index.js lines 297-379), parameterized by
the host date parser.  The numeric model types make the isNaN guards on the
form id, the field ids, pageNumber and perPage unreachable, so those guards
are omitted; every other check appears in source order.  An error result
models a synchronously thrown Error; an ok result is the parameter mapping
handed to the request helper. -/
def getSubmissionsParams (args : GetSubsArgs) (dateParse : String → Option Int) :
    Except FsError (List (String × QVal)) :=
  if badTimeArg dateParse (jsOrNone args.minTime) then Except.error FsError.invalidMinTime
  else if badTimeArg dateParse (jsOrNone args.maxTime) then Except.error FsError.invalidMaxTime
  else if args.searchFieldIds.length ≠ args.searchFieldValues.length then
    Except.error FsError.fieldPairMismatch
  else if 100 < defaultPerPage args.perPage ∨ defaultPerPage args.perPage ≤ 0 then
    Except.error FsError.perPageRange
  else if defaultSort args.sort ≠ "ASC" ∧ defaultSort args.sort ≠ "DESC" then
    Except.error FsError.badSort
  else
    Except.ok (searchFieldsFold args.searchFieldIds args.searchFieldValues
      (getSubmissionsBaseParams args))

/-- Full call model of getSubmissions: validate and build the parameter
mapping, then hand it to the request helper for GET on the submission
endpoint of the form. -/
def FsAPI.getSubmissionsCall (api : FsAPI) (formId : Int) (args : GetSubsArgs)
    (dateParse : String → Option Int) : Except FsError ReqOptions :=
  match getSubmissionsParams args dateParse with
  | Except.error e => Except.error e
  | Except.ok ps =>
      match api.request ("form/" ++ intToStr formId ++ "/submission.json")
          (some "GET") (some ps) true with
      | Except.error e => Except.error (FsError.requestErr e)
      | Except.ok o => Except.ok o

/-- Arguments shared by submitForm (src/index.js lines 424-431) and
editSubmissionData (lines 557-564). -/
structure SubmitArgs where
  fieldIds : List Int
  fieldValues : List Scalar
  timestamp : Option String
  userAgent : Option String
  ipAddress : Option String
  paymentStatus : Option String
  read : Bool
  deriving DecidableEq

/-- Timestamp validity test of src/index.js lines 437 and 570: a present
timestamp is bad when the general parse fails or the canonical-format test
fails. -/
def badTimestampArg (dateParse : String → Option Int) : Option String → Bool
  | some s => decide (strtotime (dateParse s) = none) || !testDateFormat s
  | none => false

/-- Field-pair loop of src/index.js lines 458-467 and 591-600: assign the
value at each index to the key field underscore the field id. -/
def fieldPairsFold (ids : List Int) (vals : List Scalar)
    (ps : List (String × QVal)) : List (String × QVal) :=
  (ids.zip vals).foldl
    (fun acc x => objSet acc ("field_" ++ intToStr x.1) (QVal.scalar x.2)) ps

/-- Parameter mapping of submitForm and editSubmissionData before the
field-pair loop (src/index.js lines 441-456 and 574-589). -/
def submitFormBaseParams (args : SubmitArgs) : List (String × QVal) :=
  let ps : List (String × QVal) := []
  let ps := match jsOrNone args.timestamp with
    | some s => objSet ps "timestamp" (QVal.scalar (Scalar.str s))
    | none => ps
  let ps := match jsOrNone args.userAgent with
    | some s => objSet ps "user_agent" (QVal.scalar (Scalar.str s))
    | none => ps
  let ps := match jsOrNone args.ipAddress with
    | some s => objSet ps "remote_addr" (QVal.scalar (Scalar.str s))
    | none => ps
  let ps := match jsOrNone args.paymentStatus with
    | some s => objSet ps "payment_status" (QVal.scalar (Scalar.str s))
    | none => ps
  let ps := if args.read then objSet ps "read" (QVal.scalar (Scalar.int 1)) else ps
  ps

/-- Model of the validation and parameter building shared by
FsAPI.prototype.submitForm (src/index.js lines 418-467) and
FsAPI.prototype.editSubmissionData (lines 551-600); the numeric model types
make the isNaN guards unreachable, so they are omitted. -/
def submitFormParams (args : SubmitArgs) (dateParse : String → Option Int) :
    Except FsError (List (String × QVal)) :=
  if args.fieldIds.length ≠ args.fieldValues.length then
    Except.error FsError.fieldPairMismatch
  else if badTimestampArg dateParse (jsOrNone args.timestamp) then
    Except.error FsError.invalidTimestamp
  else
    Except.ok (fieldPairsFold args.fieldIds args.fieldValues (submitFormBaseParams args))

/-- Full call model of submitForm: POST to the submission endpoint of the
form. -/
def FsAPI.submitFormCall (api : FsAPI) (formId : Int) (args : SubmitArgs)
    (dateParse : String → Option Int) : Except FsError ReqOptions :=
  match submitFormParams args dateParse with
  | Except.error e => Except.error e
  | Except.ok ps =>
      match api.request ("form/" ++ intToStr formId ++ "/submission.json")
          (some "POST") (some ps) true with
      | Except.error e => Except.error (FsError.requestErr e)
      | Except.ok o => Except.ok o

/-- Full call model of editSubmissionData: PUT to the submission endpoint. -/
def FsAPI.editSubmissionDataCall (api : FsAPI) (submissionId : Int)
    (args : SubmitArgs) (dateParse : String → Option Int) :
    Except FsError ReqOptions :=
  match submitFormParams args dateParse with
  | Except.error e => Except.error e
  | Except.ok ps =>
      match api.request ("submission/" ++ intToStr submissionId ++ ".json")
          (some "PUT") (some ps) true with
      | Except.error e => Except.error (FsError.requestErr e)
      | Except.ok o => Except.ok o

/-- Replacement of the search-field id list, leaving every other argument
unchanged. -/
def setSearchFieldIds (a : GetSubsArgs) (ids : List Int) : GetSubsArgs :=
  ⟨a.encryptionPassword, a.minTime, a.maxTime, ids, a.searchFieldValues,
    a.pageNumber, a.perPage, a.sort, a.data, a.expandData⟩

/-- Sample configuration used by concrete witnesses. -/
def sampleApi : FsAPI := ⟨"token", "www.formstack.com", 443, "/api/v2/"⟩

/-- Date parser stub used by concrete witnesses; it parses nothing. -/
def noParse : String → Option Int := fun _ => none

/-- Concrete getSubmissions arguments with one search-field pair. -/
def oneSearchArgs : GetSubsArgs :=
  ⟨none, none, none, [7], [Scalar.str "v"], none, none, none, false, false⟩

/-- Concrete getSubmissions arguments with two ids and one value. -/
def mismatchedSearchArgs : GetSubsArgs :=
  ⟨none, none, none, [1, 2], [Scalar.str "a"], none, none, none, false, false⟩

/-- Concrete submit arguments with two field ids and one field value. -/
def mismatchedSubmitArgs : SubmitArgs :=
  ⟨[1, 2], [Scalar.str "a"], none, none, none, none, false⟩

/-!
Theorems.  Helper lemmas come first, then one theorem per claim together
with its witness or counterexample where required.
-/

theorem foldl_push_map {α : Type} (g : α → String) :
    ∀ (l : List α) (init : List String),
      l.foldl (fun acc a => acc ++ [g a]) init = init ++ l.map g := by
  intro l
  induction l with
  | nil => intro init; simp
  | cons a t ih => intro init; simp [ih]

theorem pushSegments_eq (parts : List String) (item : String × QVal) :
    pushSegments parts item = parts ++ specSegments item := by
  rcases item with ⟨k, v⟩
  cases v with
  | scalar s => simp [pushSegments, specSegments]
  | nested subs =>
      simpa [pushSegments, specSegments] using
        foldl_push_map (fun sub => k ++ "[" ++ sub.1 ++ "]=" ++ Scalar.toJSString sub.2) subs parts

theorem foldl_pushSegments :
    ∀ (data : List (String × QVal)) (init : List String),
      data.foldl pushSegments init = init ++ (data.map specSegments).flatten := by
  intro data
  induction data with
  | nil => intro init; simp
  | cons item t ih => intro init; simp [pushSegments_eq, ih]

/-- C4: for every parameter mapping of scalars and one-level-flat mappings,
the source encoder dataToQueryString agrees with the reference definition of
the spec — per-entry segments in iteration order, joined with ampersands,
URI encoding applied once to the whole joined string. -/
theorem dataToQueryString_eq_specEncode :
    ∀ data : List (String × QVal), dataToQueryString data = specEncode data := by
  intro data
  unfold dataToQueryString specEncode
  rw [foldl_pushSegments]
  simp

theorem encodeList_id :
    ∀ l : List Char, (∀ c ∈ l, uriUnescaped c = true) →
      l.foldr (fun c acc => encodeURIChar c ++ acc) [] = l := by
  intro l h
  induction l with
  | nil => rfl
  | cons c t ih =>
      have hc : uriUnescaped c = true := h c (by simp)
      have ht : ∀ c ∈ t, uriUnescaped c = true := fun x hx => h x (by simp [hx])
      rw [List.foldr_cons, ih ht]
      simp [encodeURIChar, hc]

theorem encodeURI_of_unescaped (s : String)
    (h : ∀ c ∈ s.data, uriUnescaped c = true) : encodeURI s = s := by
  unfold encodeURI
  rw [encodeList_id s.data h]

/-- C5 counterexample: a value containing an equals sign and an ampersand
passes through the encoder verbatim — the output contains no percent sign at
all, so neither character was percent-encoded, contrary to the claim. -/
theorem dataToQueryString_eq_amp_kept :
    dataToQueryString [("a", QVal.scalar (Scalar.str "x=y&z"))] = "a=x=y&z" ∧
      ("a=x=y&z").data.contains '%' = false := by
  exact ⟨by decide, by decide⟩

/-- C5 amended: the whole-string URI encoding applied by dataToQueryString
does not escape the equals sign or the ampersand — they belong to the set
encodeURI leaves intact — so for any key and value made of characters of that
set (which includes both characters) the output is the raw key equals value
segment, unescaped. -/
theorem dataToQueryString_value_unescaped (k v : String)
    (hk : ∀ c ∈ k.data, uriUnescaped c = true)
    (hv : ∀ c ∈ v.data, uriUnescaped c = true) :
    dataToQueryString [(k, QVal.scalar (Scalar.str v))] = k ++ "=" ++ v := by
  have hall : ∀ c ∈ (k ++ "=" ++ v).data, uriUnescaped c = true := by
    intro c hc
    rw [String.data_append, String.data_append] at hc
    rcases List.mem_append.mp hc with hc1 | hc2
    · rcases List.mem_append.mp hc1 with hk1 | he
      · exact hk c hk1
      · have : c = '=' := by simpa using he
        subst this; decide
    · exact hv c hc2
  have hred : dataToQueryString [(k, QVal.scalar (Scalar.str v))] = encodeURI (k ++ "=" ++ v) := rfl
  rw [hred, encodeURI_of_unescaped _ hall]

/-- C5 witness: the amended theorem applied at a concrete value containing
both an equals sign and an ampersand. -/
theorem dataToQueryString_value_unescaped_witness :
    dataToQueryString [("a", QVal.scalar (Scalar.str "x=y&z"))] = "a" ++ "=" ++ "x=y&z" :=
  dataToQueryString_value_unescaped "a" "x=y&z" (by decide) (by decide)

/-- C6 counterexample: at the epoch itself — the parse result of the string
1970-01-01 00:00:00 under a UTC host clock is zero milliseconds — strtotime
returns zero seconds, not the claimed invalid result, because the source
rejects only strictly negative parses. -/
theorem strtotime_epoch_not_invalid :
    strtotime (some 0) = some 0 ∧ strtotime (some 0) ≠ none := by
  have h : strtotime (some 0) = some 0 := by
    show (if (0 : Int) < 0 then none else some (((0 : Int) : Rat) / 1000)) = some 0
    norm_num
  exact ⟨h, by rw [h]; simp⟩

/-- C6 amended: strtotime returns invalid exactly on an unparseable string or
a strictly pre-epoch parse; the epoch itself and every later instant yield
the non-negative parse value divided by 1000 — seconds since the epoch, an
integer whenever the parse is a whole second. -/
theorem strtotime_behavior :
    strtotime none = none ∧
      (∀ t : Int, t < 0 → strtotime (some t) = none) ∧
      (∀ t : Int, 0 ≤ t →
        strtotime (some t) = some ((t : Rat) / 1000) ∧ (0 : Rat) ≤ (t : Rat) / 1000) := by
  refine ⟨rfl, fun t ht => ?_, fun t ht => ⟨?_, ?_⟩⟩
  · simp [strtotime, ht]
  · simp [strtotime, not_lt.mpr ht]
  · positivity

/-- C6 witness: the amended theorem applied at five whole seconds past the
epoch. -/
theorem strtotime_behavior_witness :
    strtotime (some 5000) = some (((5000 : Int) : Rat) / 1000) ∧
      (0 : Rat) ≤ ((5000 : Int) : Rat) / 1000 :=
  strtotime_behavior.2.2 5000 (by norm_num)

/-- C1: on a 2xx response whose payload signals an API-level error, getForms
does not deliver a failure result — it throws a TypeError reading the forms
property of the nulled data, and it does the same on every failure status —
while getFormDetails delivers the claimed failure result carrying the full
payload with a null data. -/
theorem getForms_error_payload_crash :
    getFormsOutcome (HttpEvent.response 200 (some errorPayload)) =
        CallOutcome.thrown JsException.nullAccessThrow ∧
      getFormDetailsOutcome (HttpEvent.response 200 (some errorPayload)) =
        CallOutcome.callback none (some (ErrVal.payload errorPayload)) ∧
      getFormsOutcome (HttpEvent.response 500 none) =
        CallOutcome.thrown JsException.nullAccessThrow ∧
      getFormDetailsOutcome (HttpEvent.response 500 none) =
        CallOutcome.callback none (some (ErrVal.httpStatus 500)) :=
  ⟨rfl, rfl, rfl, rfl⟩

/-- C2: a 2xx response whose body is not well-formed JSON does not produce a
failure result — the parse throw escapes the request helper uncaught, because
the source parses without a try or catch. -/
theorem request_parse_error_escapes :
    requestOutcome (HttpEvent.response 200 none) = CallOutcome.thrown JsException.parseThrow :=
  rfl

/-- C3 counterexample: a 2xx response whose body is the JSON null document is
delivered by getFormDetails as a callback with both the data and the err slot
null, violating the claimed mutual exclusivity on the success path. -/
theorem getFormDetails_both_null :
    getFormDetailsOutcome (HttpEvent.response 200 (some JValue.null)) =
      CallOutcome.callback none none :=
  rfl

/-- C3 amended: whenever getFormDetails delivers a result pair, the two slots
are never both populated, and a populated err forces a null data — on every
failure status the delivered pair is exactly null data with the status error
— but both slots may be null together, as on a 2xx body that parses to JSON
null. -/
theorem getFormDetails_result_exclusive :
    (∀ (ev : HttpEvent) (d : Option JValue) (e : Option ErrVal),
        getFormDetailsOutcome ev = CallOutcome.callback d e →
          ¬(d ≠ none ∧ e ≠ none) ∧ (e ≠ none → d = none)) ∧
      (∀ (status : Nat) (parsed : Option JValue), status < 200 ∨ 300 ≤ status →
        getFormDetailsOutcome (HttpEvent.response status parsed) =
          CallOutcome.callback none (some (ErrVal.httpStatus status))) := by
  constructor
  · intro ev d e h
    cases ev with
    | transportError m =>
        simp only [getFormDetailsOutcome, requestOutcome, convertApiError] at h
        cases h
        simp
    | response status parsed =>
        simp only [getFormDetailsOutcome, requestOutcome] at h
        by_cases hs : status < 200 ∨ 300 ≤ status
        · rw [if_pos hs] at h
          simp only [convertApiError] at h
          cases h
          simp
        · rw [if_neg hs] at h
          cases parsed with
          | none => cases h
          | some j =>
              simp only [jsData] at h
              cases j with
              | null =>
                  simp only [convertApiError] at h
                  cases h
                  simp
              | _ =>
                  simp only [convertApiError] at h
                  split at h
                  · cases h; simp
                  · cases h; simp
  · intro status parsed hs
    simp [getFormDetailsOutcome, requestOutcome, convertApiError, hs]

/-- C3 witness: the exclusivity theorem applied at a concrete successful
response and at a concrete failure status. -/
theorem getFormDetails_result_exclusive_witness :
    (¬((some (JValue.obj [("id", JValue.num 1)]) : Option JValue) ≠ none ∧
        (none : Option ErrVal) ≠ none) ∧
      ((none : Option ErrVal) ≠ none →
        (some (JValue.obj [("id", JValue.num 1)]) : Option JValue) = none)) ∧
      getFormDetailsOutcome (HttpEvent.response 500 none) =
        CallOutcome.callback none (some (ErrVal.httpStatus 500)) :=
  ⟨getFormDetails_result_exclusive.1
      (HttpEvent.response 200 (some (JValue.obj [("id", JValue.num 1)]))) _ _ rfl,
    getFormDetails_result_exclusive.2 500 none (by omega)⟩

theorem eatSym_eq_some (p : Char → Bool) (l r : List Char) :
    eatSym p l = some r ↔ ∃ c, l = c :: r ∧ p c = true := by
  cases l with
  | nil =>
      constructor
      · intro h; cases h
      · rintro ⟨c, heq, _⟩; cases heq
  | cons c t =>
      by_cases hp : p c = true
      · simp only [eatSym, hp, if_true]
        constructor
        · intro h
          injection h with h
          subst h
          exact ⟨c, rfl, hp⟩
        · rintro ⟨c2, heq, _⟩
          cases heq
          rfl
      · simp only [eatSym, hp, if_false]
        constructor
        · intro h; cases h
        · rintro ⟨c2, heq, hp2⟩
          cases heq
          exact absurd hp2 hp

theorem eatDigits_eq_some :
    ∀ (n : Nat) (l r : List Char),
      eatDigits n l = some r ↔ ∃ d, l = d ++ r ∧ d.length = n ∧ digitsBlock d := by
  intro n
  induction n with
  | zero =>
      intro l r
      constructor
      · intro h
        have hlr : l = r := by simpa [eatDigits] using h
        exact ⟨[], by simpa using hlr, rfl, by intro c hc; cases hc⟩
      · rintro ⟨d, heq, hlen, _⟩
        rw [List.length_eq_zero] at hlen
        subst hlen
        simp [eatDigits]
        simpa using heq
  | succ n ih =>
      intro l r
      cases l with
      | nil =>
          simp only [eatDigits]
          constructor
          · intro h; cases h
          · rintro ⟨d, heq, hlen, _⟩
            cases d with
            | nil => simp at hlen
            | cons a t => cases heq
      | cons c t =>
          by_cases hc : isDigitChar c = true
          · simp only [eatDigits, hc, if_true]
            rw [ih t r]
            constructor
            · rintro ⟨d, heq, hlen, hd⟩
              refine ⟨c :: d, by simp [heq], by simp [hlen], ?_⟩
              intro x hx
              rcases List.mem_cons.mp hx with h1 | h2
              · subst h1; exact hc
              · exact hd x h2
            · rintro ⟨d, heq, hlen, hd⟩
              cases d with
              | nil => simp at hlen
              | cons a dt =>
                  cases heq
                  exact ⟨dt, rfl, by simpa using hlen, fun x hx => hd x (by simp [hx])⟩
          · simp only [eatDigits, hc, if_false]
            constructor
            · intro h; cases h
            · rintro ⟨d, heq, hlen, hd⟩
              cases d with
              | nil => simp at hlen
              | cons a dt =>
                  cases heq
                  exact absurd (hd c (by simp)) hc

theorem eatDigits12_eq_some (l r : List Char) :
    eatDigits12 l = some r ↔
      ∃ d, l = d ++ r ∧ 1 ≤ d.length ∧ d.length ≤ 2 ∧ digitsBlock d ∧
        (d.length = 1 → headIsDigit r = false) := by
  constructor
  · intro h
    match l with
    | [] => cases h
    | [c] =>
        by_cases hc : isDigitChar c = true
        · simp only [eatDigits12, hc, if_true] at h
          cases h
          exact ⟨[c], rfl, by simp, by simp, by intro x hx; rcases List.mem_singleton.mp hx with rfl; exact hc,
            fun _ => rfl⟩
        · simp only [eatDigits12, hc, if_false] at h
          cases h
    | c1 :: c2 :: t =>
        by_cases h1 : isDigitChar c1 = true
        · by_cases h2 : isDigitChar c2 = true
          · simp only [eatDigits12, h1, h2, if_true] at h
            cases h
            refine ⟨[c1, c2], rfl, by simp, by simp, ?_, by intro habs; simp at habs⟩
            intro x hx
            rcases List.mem_cons.mp hx with rfl | hx2
            · exact h1
            · rcases List.mem_singleton.mp hx2 with rfl
              exact h2
          · simp only [eatDigits12, h1, h2, if_true, if_false] at h
            cases h
            refine ⟨[c1], rfl, by simp, by simp, ?_, ?_⟩
            · intro x hx
              rcases List.mem_singleton.mp hx with rfl
              exact h1
            · intro _
              simpa [headIsDigit] using by simpa using h2
        · simp only [eatDigits12, h1, if_false] at h
          cases h
  · rintro ⟨d, heq, hge, hle, hd, hcond⟩
    match d, hge, hle with
    | [a], _, _ =>
        have ha : isDigitChar a = true := hd a (by simp)
        cases heq
        cases r with
        | nil => simp [eatDigits12, ha]
        | cons c2 t =>
            have hc2 : isDigitChar c2 = false := by
              have := hcond rfl
              simpa [headIsDigit] using this
            simp [eatDigits12, ha, hc2]
    | [a, b], _, _ =>
        have ha : isDigitChar a = true := hd a (by simp)
        have hb : isDigitChar b = true := hd b (by simp)
        cases heq
        simp [eatDigits12, ha, hb]

theorem ws_not_digit : ∀ c : Char, jsWhitespace c = true → isDigitChar c = false := by
  intro c h
  simp only [jsWhitespace, Bool.or_eq_true, Bool.and_eq_true, decide_eq_true_eq] at h
  simp only [isDigitChar, Bool.and_eq_false_iff, decide_eq_false_iff_not, not_le]
  omega

theorem space_not_digit : ∀ c : Char, (c == ' ') = true → isDigitChar c = false := by
  intro c h
  have : c = ' ' := by simpa using h
  subst this
  decide

theorem runCanonical_eq_iff (sep : Char → Bool)
    (hsep : ∀ c, sep c = true → isDigitChar c = false) (l : List Char) :
    runCanonical sep l = some [] ↔ canonicalShapeList sep l := by
  constructor
  · intro h
    rw [runCanonical] at h
    rcases Option.bind_eq_some.mp h with ⟨r1, h1, h⟩
    rcases Option.bind_eq_some.mp h with ⟨r2, h2, h⟩
    rcases Option.bind_eq_some.mp h with ⟨r3, h3, h⟩
    rcases Option.bind_eq_some.mp h with ⟨r4, h4, h⟩
    rcases Option.bind_eq_some.mp h with ⟨r5, h5, h⟩
    rcases Option.bind_eq_some.mp h with ⟨r6, h6, h⟩
    rcases Option.bind_eq_some.mp h with ⟨r7, h7, h⟩
    rcases Option.bind_eq_some.mp h with ⟨r8, h8, h⟩
    rcases Option.bind_eq_some.mp h with ⟨r9, h9, h⟩
    rcases Option.bind_eq_some.mp h with ⟨r10, h10, h11⟩
    rcases (eatDigits_eq_some 4 l r1).mp h1 with ⟨y, hl, hy4, hyd⟩
    rcases (eatSym_eq_some _ r1 r2).mp h2 with ⟨cd1, hr1, hcd1⟩
    rcases (eatDigits12_eq_some r2 r3).mp h3 with ⟨mo, hr2, hmo1, hmo2, hmod, _⟩
    rcases (eatSym_eq_some _ r3 r4).mp h4 with ⟨cd2, hr3, hcd2⟩
    rcases (eatDigits12_eq_some r4 r5).mp h5 with ⟨dy, hr4, hdy1, hdy2, hdyd, _⟩
    rcases (eatSym_eq_some sep r5 r6).mp h6 with ⟨sc, hr5, hsc⟩
    rcases (eatDigits12_eq_some r6 r7).mp h7 with ⟨hr, hr6, hhr1, hhr2, hhrd, _⟩
    rcases (eatSym_eq_some _ r7 r8).mp h8 with ⟨cc1, hr7, hcc1⟩
    rcases (eatDigits12_eq_some r8 r9).mp h9 with ⟨mi, hr8, hmi1, hmi2, hmid, _⟩
    rcases (eatSym_eq_some _ r9 r10).mp h10 with ⟨cc2, hr9, hcc2⟩
    rcases (eatDigits12_eq_some r10 []).mp h11 with ⟨se, hr10, hse1, hse2, hsed, _⟩
    have hcd1e : cd1 = '-' := by simpa using hcd1
    have hcd2e : cd2 = '-' := by simpa using hcd2
    have hcc1e : cc1 = ':' := by simpa using hcc1
    have hcc2e : cc2 = ':' := by simpa using hcc2
    subst hcd1e hcd2e hcc1e hcc2e
    rw [List.append_nil] at hr10
    subst hr10 hr9 hr8 hr7 hr6 hr5 hr4 hr3 hr2 hr1 hl
    exact ⟨y, mo, dy, hr, mi, r10, sc, rfl, hy4, hyd, hmo1, hmo2, hmod,
      hdy1, hdy2, hdyd, hsc, hhr1, hhr2, hhrd, hmi1, hmi2, hmid, hse1, hse2, hsed⟩
  · rintro ⟨y, mo, dy, hr, mi, se, sc, hl, hy4, hyd, hmo1, hmo2, hmod,
      hdy1, hdy2, hdyd, hsc, hhr1, hhr2, hhrd, hmi1, hmi2, hmid, hse1, hse2, hsed⟩
    subst hl
    rw [runCanonical]
    have e1 : eatDigits 4 (y ++ '-' :: (mo ++ '-' :: (dy ++ sc :: (hr ++ ':' :: (mi ++ ':' :: se))))) =
        some ('-' :: (mo ++ '-' :: (dy ++ sc :: (hr ++ ':' :: (mi ++ ':' :: se))))) :=
      (eatDigits_eq_some 4 _ _).mpr ⟨y, rfl, hy4, hyd⟩
    rw [e1, Option.some_bind]
    rw [(eatSym_eq_some _ _ _).mpr ⟨'-', rfl, by simp⟩, Option.some_bind]
    rw [(eatDigits12_eq_some _ ('-' :: (dy ++ sc :: (hr ++ ':' :: (mi ++ ':' :: se))))).mpr
      ⟨mo, rfl, hmo1, hmo2, hmod, fun _ => rfl⟩, Option.some_bind]
    rw [(eatSym_eq_some _ _ _).mpr ⟨'-', rfl, by simp⟩, Option.some_bind]
    rw [(eatDigits12_eq_some _ (sc :: (hr ++ ':' :: (mi ++ ':' :: se)))).mpr
      ⟨dy, rfl, hdy1, hdy2, hdyd, fun _ => by simpa [headIsDigit] using hsep sc hsc⟩,
      Option.some_bind]
    rw [(eatSym_eq_some sep _ _).mpr ⟨sc, rfl, hsc⟩, Option.some_bind]
    rw [(eatDigits12_eq_some _ (':' :: (mi ++ ':' :: se))).mpr
      ⟨hr, rfl, hhr1, hhr2, hhrd, fun _ => rfl⟩, Option.some_bind]
    rw [(eatSym_eq_some _ _ _).mpr ⟨':', rfl, by simp⟩, Option.some_bind]
    rw [(eatDigits12_eq_some _ (':' :: se)).mpr ⟨mi, rfl, hmi1, hmi2, hmid, fun _ => rfl⟩,
      Option.some_bind]
    rw [(eatSym_eq_some _ _ _).mpr ⟨':', rfl, by simp⟩, Option.some_bind]
    exact (eatDigits12_eq_some se []).mpr
      ⟨se, (List.append_nil se).symm, hse1, hse2, hsed, fun _ => rfl⟩

/-- C7 amended: testDateFormat accepts exactly the strings of the claimed
shape with the date-time separator generalized from the space to any
character of the whitespace class, and the two concrete examples of the
claim behave as stated. -/
theorem testDateFormat_characterization :
    (∀ s : String, testDateFormat s = true ↔ canonicalShapeList jsWhitespace s.data) ∧
      testDateFormat "2024-3-5 9:0:0" = true ∧
      testDateFormat "2024/03/05 09:00:00" = false := by
  refine ⟨fun s => ?_, by decide, by decide⟩
  have h : testDateFormat s = true ↔ runCanonical jsWhitespace s.data = some [] := by
    simp [testDateFormat]
  rw [h]
  exact runCanonical_eq_iff jsWhitespace ws_not_digit s.data

/-- C7 counterexample: a tabulator between the date and the time is accepted
by testDateFormat although the string is not of the claimed shape with a
space separator, so the claimed exact characterization fails. -/
theorem testDateFormat_tab_cex :
    testDateFormat "2024-3-5\t9:0:0" = true ∧
      ¬ canonicalShapeList (fun c => c == ' ') (String.data "2024-3-5\t9:0:0") := by
  refine ⟨by decide, fun hshape => ?_⟩
  have h := (runCanonical_eq_iff (fun c => c == ' ') space_not_digit
    (String.data "2024-3-5\t9:0:0")).mpr hshape
  exact absurd h (by decide)

/-- C8: the request helper reports an error — and builds no request
descriptor, so no network I/O can follow — exactly when the endpoint is
empty, the callback is not a function, or the normalized verb is not one of
the four valid verbs. -/
theorem request_error_iff :
    ∀ (api : FsAPI) (endpoint : String) (verb : Option String)
      (args : Option (List (String × QVal))) (cb : Bool),
      (∃ e, api.request endpoint verb args cb = Except.error e) ↔
        (endpoint = "" ∨ cb = false ∨ validVerbs.contains (normalizeVerb verb) = false) := by
  intro api endpoint verb args cb
  simp only [FsAPI.request]
  split_ifs with h1 h2 h3
  · exact iff_of_true ⟨_, rfl⟩ (Or.inl h1)
  · exact iff_of_true ⟨_, rfl⟩ (Or.inr (Or.inl h2))
  · exact iff_of_true ⟨_, rfl⟩ (Or.inr (Or.inr h3))
  · refine iff_of_false ?_ ?_
    · rintro ⟨e, he⟩
      cases he
    · rintro (hc | hc | hc)
      · exact h1 hc
      · exact h2 hc
      · exact h3 hc

theorem getSubmissionsParams_mismatch (args : GetSubsArgs) (dp : String → Option Int)
    (h : args.searchFieldIds.length ≠ args.searchFieldValues.length) :
    ∃ e, getSubmissionsParams args dp = Except.error e := by
  simp only [getSubmissionsParams]
  split_ifs with h1 h2
  · exact ⟨_, rfl⟩
  · exact ⟨_, rfl⟩
  · exact ⟨_, rfl⟩

theorem submitFormParams_mismatch (args : SubmitArgs) (dp : String → Option Int)
    (h : args.fieldIds.length ≠ args.fieldValues.length) :
    submitFormParams args dp = Except.error FsError.fieldPairMismatch := by
  simp only [submitFormParams]
  rw [if_pos h]

/-- C9: every one of the three resource methods taking paired id and value
arrays reports a synchronous error when the two arrays differ in length, so
the parameter mapping is never built and no request is attempted. -/
theorem mismatched_pairs_fail :
    ∀ (api : FsAPI) (formId subId : Int) (gargs : GetSubsArgs) (sargs : SubmitArgs)
      (dp : String → Option Int),
      (gargs.searchFieldIds.length ≠ gargs.searchFieldValues.length →
        ∃ e, api.getSubmissionsCall formId gargs dp = Except.error e) ∧
      (sargs.fieldIds.length ≠ sargs.fieldValues.length →
        ∃ e, api.submitFormCall formId sargs dp = Except.error e) ∧
      (sargs.fieldIds.length ≠ sargs.fieldValues.length →
        ∃ e, api.editSubmissionDataCall subId sargs dp = Except.error e) := by
  intro api formId subId gargs sargs dp
  refine ⟨fun h => ?_, fun h => ?_, fun h => ?_⟩
  · rcases getSubmissionsParams_mismatch gargs dp h with ⟨e, he⟩
    exact ⟨e, by simp [FsAPI.getSubmissionsCall, he]⟩
  · exact ⟨FsError.fieldPairMismatch,
      by simp [FsAPI.submitFormCall, submitFormParams_mismatch sargs dp h]⟩
  · exact ⟨FsError.fieldPairMismatch,
      by simp [FsAPI.editSubmissionDataCall, submitFormParams_mismatch sargs dp h]⟩

/-- C9 witness: the theorem applied at two field ids paired with one value. -/
theorem mismatched_pairs_fail_witness :
    (∃ e, sampleApi.getSubmissionsCall 1 mismatchedSearchArgs noParse = Except.error e) ∧
      (∃ e, sampleApi.submitFormCall 1 mismatchedSubmitArgs noParse = Except.error e) ∧
      (∃ e, sampleApi.editSubmissionDataCall 2 mismatchedSubmitArgs noParse = Except.error e) := by
  have h := mismatched_pairs_fail sampleApi 1 2 mismatchedSearchArgs mismatchedSubmitArgs noParse
  exact ⟨h.1 (by decide), h.2.1 (by decide), h.2.2 (by decide)⟩

theorem objSet_objSet_same (ps : List (String × QVal)) (k : String) (x v : QVal) :
    objSet (objSet ps k x) k v = objSet ps k v := by
  induction ps with
  | nil => simp [objSet]
  | cons p rest ih =>
      by_cases hp : p.1 == k
      · simp [objSet, hp]
      · simp [objSet, hp, ih]

theorem objGet_objSet_self (ps : List (String × QVal)) (k : String) (v : QVal) :
    objGet (objSet ps k v) k = some v := by
  induction ps with
  | nil => simp [objSet, objGet]
  | cons p rest ih =>
      by_cases hp : p.1 == k
      · simp [objSet, objGet, hp]
      · simp [objSet, objGet, hp, ih]

theorem objGet_objSet_ne (ps : List (String × QVal)) (k k2 : String) (v : QVal)
    (h : k2 ≠ k) : objGet (objSet ps k v) k2 = objGet ps k2 := by
  have hk : (k == k2) = false := by simpa using (Ne.symm h)
  induction ps with
  | nil => simp [objSet, objGet, hk]
  | cons p rest ih =>
      by_cases hp : p.1 == k
      · have hpk : p.1 = k := by simpa using hp
        have hp2 : (p.1 == k2) = false := by rw [hpk]; exact hk
        simp [objSet, objGet, hp, hk, hp2]
      · simp [objSet, objGet, hp, ih]

theorem searchFieldsFold_collapse :
    ∀ (l : List (Nat × (Int × Scalar))) (ps : List (String × QVal)),
      l.foldl (fun acc x =>
          objSet (objSet acc (searchFieldKey x.1) (QVal.scalar (Scalar.int x.2.1)))
            (searchFieldKey x.1) (QVal.scalar x.2.2)) ps =
        l.foldl (fun acc x => objSet acc (searchFieldKey x.1) (QVal.scalar x.2.2)) ps := by
  intro l
  induction l with
  | nil => intro ps; rfl
  | cons a t ih =>
      intro ps
      simp only [List.foldl_cons]
      rw [objSet_objSet_same]
      exact ih _

theorem digitChar_toNat (d : Nat) (h : d < 10) : (digitChar d).toNat = 48 + d := by
  interval_cases d <;> decide

theorem digitsVal_append (l1 l2 : List Char) (acc : Nat) :
    digitsVal (l1 ++ l2) acc = digitsVal l2 (digitsVal l1 acc) := by
  simp [digitsVal, List.foldl_append]

theorem digitsVal_natDigitsAux :
    ∀ (fuel n acc : Nat), n < fuel →
      digitsVal (natDigitsAux fuel n) acc = acc * 10 ^ (natDigitsAux fuel n).length + n := by
  intro fuel
  induction fuel with
  | zero => intro n acc h; exact absurd h (Nat.not_lt_zero n)
  | succ fuel ih =>
      intro n acc h
      by_cases h10 : n < 10
      · simp only [natDigitsAux, h10, if_true]
        simp [digitsVal, digitChar_toNat n h10]
      · simp only [natDigitsAux, h10, if_false]
        have hdiv : n / 10 < fuel := by
          have h2 := Nat.div_lt_self (show 0 < n by omega) (show 1 < 10 by omega)
          omega
        rw [digitsVal_append, ih (n / 10) acc hdiv, List.length_append]
        simp only [digitsVal, List.foldl_cons, List.foldl_nil, List.length_cons,
          List.length_nil]
        rw [digitChar_toNat (n % 10) (Nat.mod_lt n (by omega))]
        rw [pow_succ, ← mul_assoc]
        generalize acc * 10 ^ (natDigitsAux fuel (n / 10)).length = B
        omega

theorem natDigits_inj (m n : Nat) (h : natDigits m = natDigits n) : m = n := by
  have hm := digitsVal_natDigitsAux (m + 1) m 0 (by omega)
  have hn := digitsVal_natDigitsAux (n + 1) n 0 (by omega)
  unfold natDigits at h
  rw [h] at hm
  simp only [Nat.zero_mul, Nat.zero_add] at hm hn
  omega

theorem searchFieldKey_inj (m n : Nat) (h : searchFieldKey m = searchFieldKey n) : m = n := by
  apply natDigits_inj
  have hd := congrArg String.data h
  simp only [searchFieldKey, natToStr, String.data_append] at hd
  exact List.append_cancel_left hd

theorem objGet_foldl_of_ne :
    ∀ (l : List (Nat × (Int × Scalar))) (ps : List (String × QVal)) (k : String),
      (∀ x ∈ l, searchFieldKey x.1 ≠ k) →
      objGet (l.foldl (fun acc x => objSet acc (searchFieldKey x.1) (QVal.scalar x.2.2)) ps) k =
        objGet ps k := by
  intro l
  induction l with
  | nil => intro ps k _; rfl
  | cons a t ih =>
      intro ps k h
      simp only [List.foldl_cons]
      rw [ih _ k (fun x hx => h x (by simp [hx]))]
      exact objGet_objSet_ne ps (searchFieldKey a.1) k _ (Ne.symm (h a (by simp)))

theorem searchFold_lookup :
    ∀ (ids : List Int) (vals : List Scalar) (start : Nat) (ps : List (String × QVal))
      (i : Nat) (h : i < vals.length), ids.length = vals.length →
      objGet ((List.enumFrom start (ids.zip vals)).foldl
          (fun acc x => objSet acc (searchFieldKey x.1) (QVal.scalar x.2.2)) ps)
        (searchFieldKey (start + i)) = some (QVal.scalar (vals.get ⟨i, h⟩)) := by
  intro ids
  induction ids with
  | nil =>
      intro vals start ps i h hlen
      cases vals with
      | nil => exact absurd h (by simp)
      | cons v tv => simp at hlen
  | cons a t ih =>
      intro vals start ps i h hlen
      cases vals with
      | nil => simp at h
      | cons v tv =>
          show objGet ((List.enumFrom start ((a, v) :: t.zip tv)).foldl _ ps) _ = _
          simp only [List.enumFrom, List.foldl_cons]
          cases i with
          | zero =>
              rw [Nat.add_zero]
              rw [objGet_foldl_of_ne _ _ _ ?_]
              · simp [objGet_objSet_self]
              · intro x hx heq
                have hle := List.le_fst_of_mem_enumFrom hx
                have := searchFieldKey_inj _ _ heq
                omega
          | succ i2 =>
              have hstep : start + (i2 + 1) = (start + 1) + i2 := by omega
              rw [hstep]
              have hh : i2 < tv.length := by simpa using h
              have hl2 : t.length = tv.length := by simpa using hlen
              rw [ih tv (start + 1) _ i2 hh hl2]
              simp

theorem searchFold_ids_irrelevant :
    ∀ (ids1 ids2 : List Int) (vals : List Scalar) (start : Nat) (ps : List (String × QVal)),
      ids1.length = ids2.length →
      (List.enumFrom start (ids1.zip vals)).foldl
          (fun acc x => objSet acc (searchFieldKey x.1) (QVal.scalar x.2.2)) ps =
        (List.enumFrom start (ids2.zip vals)).foldl
          (fun acc x => objSet acc (searchFieldKey x.1) (QVal.scalar x.2.2)) ps := by
  intro ids1
  induction ids1 with
  | nil =>
      intro ids2 vals start ps hlen
      have : ids2 = [] := List.length_eq_zero.mp hlen.symm
      subst this
      rfl
  | cons a t ih =>
      intro ids2 vals start ps hlen
      cases ids2 with
      | nil => simp at hlen
      | cons b t2 =>
          cases vals with
          | nil => rfl
          | cons v tv =>
              show (List.enumFrom start ((a, v) :: t.zip tv)).foldl _ ps =
                (List.enumFrom start ((b, v) :: t2.zip tv)).foldl _ ps
              simp only [List.enumFrom, List.foldl_cons]
              exact ih t2 tv (start + 1) _ (by simpa using hlen)

theorem getSubmissionsParams_setIds (args : GetSubsArgs) (ids2 : List Int)
    (dp : String → Option Int) (hlen2 : ids2.length = args.searchFieldIds.length) :
    getSubmissionsParams (setSearchFieldIds args ids2) dp = getSubmissionsParams args dp := by
  have hbase : getSubmissionsBaseParams (setSearchFieldIds args ids2) =
      getSubmissionsBaseParams args := rfl
  have hfold : searchFieldsFold ids2 args.searchFieldValues (getSubmissionsBaseParams args) =
      searchFieldsFold args.searchFieldIds args.searchFieldValues
        (getSubmissionsBaseParams args) := by
    unfold searchFieldsFold
    rw [searchFieldsFold_collapse, searchFieldsFold_collapse]
    exact searchFold_ids_irrelevant ids2 args.searchFieldIds args.searchFieldValues 0 _ hlen2
  simp only [getSubmissionsParams]
  rw [hbase]
  simp only [setSearchFieldIds]
  rw [hlen2, hfold]

/-- C10: whenever getSubmissions reaches the request helper, the parameter
mapping binds each key search_field_i to the i-th search-field value — the
id assigned first to the same key is immediately overwritten — and the
mapping does not depend on the search-field ids at all: any id list of the
same length produces the identical mapping. -/
theorem getSubmissions_search_field_binding :
    ∀ (args : GetSubsArgs) (dp : String → Option Int) (ps : List (String × QVal)),
      getSubmissionsParams args dp = Except.ok ps →
      (∀ (i : Nat) (h : i < args.searchFieldValues.length),
          objGet ps (searchFieldKey i) =
            some (QVal.scalar (args.searchFieldValues.get ⟨i, h⟩))) ∧
      (∀ ids2 : List Int, ids2.length = args.searchFieldIds.length →
          getSubmissionsParams (setSearchFieldIds args ids2) dp = Except.ok ps) := by
  intro args dp ps h
  have h0 := h
  simp only [getSubmissionsParams] at h
  split_ifs at h with h1 h2 h3 h4 h5
  simp only [Except.ok.injEq] at h
  subst h
  have hlen : args.searchFieldIds.length = args.searchFieldValues.length :=
    of_not_not h3
  constructor
  · intro i hi
    unfold searchFieldsFold
    rw [searchFieldsFold_collapse]
    have hl := searchFold_lookup args.searchFieldIds args.searchFieldValues 0
      (getSubmissionsBaseParams args) i hi hlen
    simpa using hl
  · intro ids2 hlen2
    rw [getSubmissionsParams_setIds args ids2 dp hlen2]
    exact h0

/-- C10 witness: the theorem applied at one search-field pair; the mapping
carries the value at the search_field_0 key, and replacing the id list
leaves the mapping unchanged. -/
theorem getSubmissions_search_field_binding_witness :
    objGet [("page", QVal.scalar (Scalar.int 1)), ("per_page", QVal.scalar (Scalar.int 25)),
        ("sort", QVal.scalar (Scalar.str "DESC")),
        ("search_field_0", QVal.scalar (Scalar.str "v"))] (searchFieldKey 0) =
      some (QVal.scalar (Scalar.str "v")) ∧
    getSubmissionsParams (setSearchFieldIds oneSearchArgs [9]) noParse =
      Except.ok [("page", QVal.scalar (Scalar.int 1)), ("per_page", QVal.scalar (Scalar.int 25)),
        ("sort", QVal.scalar (Scalar.str "DESC")),
        ("search_field_0", QVal.scalar (Scalar.str "v"))] := by
  have h := getSubmissions_search_field_binding oneSearchArgs noParse
    [("page", QVal.scalar (Scalar.int 1)), ("per_page", QVal.scalar (Scalar.int 25)),
      ("sort", QVal.scalar (Scalar.str "DESC")),
      ("search_field_0", QVal.scalar (Scalar.str "v"))] rfl
  exact ⟨h.1 0 (by decide), h.2 [9] (by decide)⟩

end Formstack
